import Mathlib

/-!
Verification of the kakarot-trading core against its specification.

Shallow embedding of the relevant Python modules:
  - `Risk`      : backend/src/risk/risk_manager.py (RiskManager)
  - `Paper`     : backend/src/trading/paper_trading_manager.py (PaperTradingManager)
  - `CandleAgg` : backend/src/trading/candle_manager.py (CandleManager)
  - `Spike`     : backend/src/signals/spike_detector.py (SpikeDetector)
  - `SvcCool`   : backend/src/signals/service.py (SignalService cooldown)
  - `Monitor`   : backend/src/trading/service.py (TradingService.monitor_positions)
  - `WsConn`    : backend/src/websocket/client.py (connect / attempt reconnect /
                  price cache)

Money, prices and times are modelled with exact rationals; the Python code
uses IEEE floats, so exact equalities proved here correspond to the
floating-point computations up to rounding.
-/

namespace Risk

/-- Trade lifecycle status, from `config/constants.py` `TradeStatus`. -/
inductive TStatus where
  | opened
  | closed
  | stoppedOut
  | takeProfit
  | trailingSl
deriving DecidableEq, Repr

/-- The four terminal statuses (`COMPLETED_STATUSES` in `risk_manager.py`). -/
def TStatus.isTerminal : TStatus → Bool
  | .opened => false
  | _ => true

/-- One row of the `trades` table, restricted to the fields the risk engine
reads: symbol id, status, realized pnl (NULL while open), and whether
`created_at` falls on the current day. -/
structure TradeRec where
  sym : ℕ
  status : TStatus
  pnl : Option ℚ
  createdToday : Bool
deriving DecidableEq, Repr

/-- The settings fields consumed by `RiskManager` (`config/settings.py`). -/
structure RiskSettings where
  accountSize : ℚ
  dailyLossLimit : ℚ
  dailyProfitTarget : ℚ
  maxConcurrentPositions : ℕ
  maxTradesPerDay : ℕ
deriving DecidableEq, Repr

/-- Defaults from `config/settings.py`: account 100000, loss limit 2%,
profit target 5%, 3 concurrent positions, 15 trades per day. -/
def defaultSettings : RiskSettings :=
  { accountSize := 100000
    dailyLossLimit := 2/100
    dailyProfitTarget := 5/100
    maxConcurrentPositions := 3
    maxTradesPerDay := 15 }

/-- Sum of `pnl` over trades in a terminal status, skipping NULL pnl
(`RiskManager._get_current_equity`, the `total_pnl` query). -/
def cumulativePnl (db : List TradeRec) : ℚ :=
  ((db.filter (fun t => t.status.isTerminal)).map (fun t => t.pnl.getD 0)).sum

/-- `RiskManager._get_current_equity`: initial account size plus the
cumulative pnl of all completed trades. -/
def currentEquity (S : RiskSettings) (db : List TradeRec) : ℚ :=
  S.accountSize + cumulativePnl db

/-- Number of trades currently in status OPEN (`active_trades` query). -/
def openCount (db : List TradeRec) : ℕ :=
  (db.filter (fun t => t.status = TStatus.opened)).length

/-- Trades whose `created_at` is on the current day (`trades_today`). -/
def tradesToday (db : List TradeRec) : List TradeRec :=
  db.filter (fun t => t.createdToday)

/-- Realized pnl of today's trades, skipping NULL pnl (`total_pnl`). -/
def todayPnl (db : List TradeRec) : ℚ :=
  ((tradesToday db).map (fun t => t.pnl.getD 0)).sum

/-- Whether an OPEN trade for the given symbol exists (`existing` query). -/
def hasOpenFor (db : List TradeRec) (sym : ℕ) : Bool :=
  db.any (fun t => t.sym = sym ∧ t.status = TStatus.opened)

/-- `RiskManager.validate_trade`, with the checks in the source's order:
max concurrent positions, daily loss limit, daily profit target, daily
trade count, existing open position for the symbol. -/
def validateTrade (S : RiskSettings) (db : List TradeRec) (sym : ℕ) : Bool :=
  if S.maxConcurrentPositions ≤ openCount db then false
  else if todayPnl db ≤ -(currentEquity S db * S.dailyLossLimit) then false
  else if currentEquity S db * S.dailyProfitTarget ≤ todayPnl db then false
  else if S.maxTradesPerDay ≤ (tradesToday db).length then false
  else if hasOpenFor db sym then false
  else true

/-- The suspension structure of `TradingService.handle_signal`'s open path:
the task first runs `risk_manager.validate_trade` (synchronous), then
awaits `order_manager.place_order` — in live mode an `httpx` POST that
yields the event loop — and only afterwards inserts the OPEN trade,
without re-checking. `ready` is before the validation, `validated` is
suspended at the awaited order placement, `finished` is done (denied or
inserted). -/
inductive TaskPhase where
  | ready
  | validated
  | finished
deriving DecidableEq, Repr

/-- One in-flight `handle_signal` task, spawned per signal via
`asyncio.create_task` (signals/service.py); two signals of different
types for the same instrument pass the per-(instrument, type) cooldown
and yield two concurrent tasks with the same symbol. -/
structure OpenTask where
  sym : ℕ
  phase : TaskPhase
deriving DecidableEq, Repr

/-- The shared state: the trade store and the in-flight tasks. -/
structure ConcState where
  db : List TradeRec
  tasks : List OpenTask
deriving DecidableEq, Repr

/-- Run task `i` up to its next suspension point, as the event loop would:
a `ready` task runs `validate_trade` against the current store — on
failure it finishes (RiskDenied), on success it suspends at the awaited
`place_order`; a `validated` task resumes after the await and inserts its
OPEN trade (no re-check, and no DB uniqueness constraint stops it). -/
def concStep (S : RiskSettings) (cs : ConcState) (i : ℕ) : ConcState :=
  match cs.tasks.get? i with
  | none => cs
  | some tk =>
      match tk.phase with
      | TaskPhase.ready =>
          if validateTrade S cs.db tk.sym then
            { cs with tasks := cs.tasks.set i { tk with phase := TaskPhase.validated } }
          else
            { cs with tasks := cs.tasks.set i { tk with phase := TaskPhase.finished } }
      | TaskPhase.validated =>
          { db := cs.db ++ [{ sym := tk.sym, status := TStatus.opened, pnl := none,
                              createdToday := true }]
            tasks := cs.tasks.set i { tk with phase := TaskPhase.finished } }
      | TaskPhase.finished => cs

/-- Run the given event-loop schedule (a list of task indices) over the
in-flight tasks, starting from an empty trade store. -/
def concRun (S : RiskSettings) (tasks : List OpenTask) (sched : List ℕ) : ConcState :=
  sched.foldl (concStep S) { db := [], tasks := tasks }

/-- Two concurrent open attempts for instrument 1. -/
def raceTasks : List OpenTask :=
  [{ sym := 1, phase := TaskPhase.ready }, { sym := 1, phase := TaskPhase.ready }]

/-- Number of OPEN trades for one symbol. -/
def openCountFor (db : List TradeRec) (sym : ℕ) : ℕ :=
  (db.filter (fun t => t.sym = sym ∧ t.status = TStatus.opened)).length

/-- The one-open-trade-per-instrument invariant. -/
def oneOpenInv (db : List TradeRec) : Prop :=
  ∀ sym, openCountFor db sym ≤ 1

/-- Settings for the spec's daily-loss scenario: a trade history whose
cumulative pnl brings current equity to exactly 100000 with the default
2% loss limit. -/
def scenarioSettings : RiskSettings :=
  { accountSize := 102000
    dailyLossLimit := 2/100
    dailyProfitTarget := 5/100
    maxConcurrentPositions := 3
    maxTradesPerDay := 15 }

/-- Trade history for the daily-loss scenario: one trade closed today at a
realized loss of 2000. -/
def scenarioDb : List TradeRec :=
  [{ sym := 5, status := TStatus.closed, pnl := some (-2000), createdToday := true }]

end Risk

namespace Paper

/-- Order side (`config/constants.py` `OrderSide`). -/
inductive Side where
  | buy
  | sell
deriving DecidableEq, Repr

/-- The brokerage/tax settings consumed by `_calculate_charges`
(`config/settings.py`). -/
structure ChargeCfg where
  brokeragePerOrder : ℚ
  sttPercentSell : ℚ
  txnChargesPercent : ℚ
  gstPercent : ℚ
  sebiChargesPercent : ℚ
  stampDutyPercentBuy : ℚ
deriving DecidableEq, Repr

/-- Defaults from `config/settings.py`. -/
def defaultCharges : ChargeCfg :=
  { brokeragePerOrder := 20
    sttPercentSell := 5/10000
    txnChargesPercent := 53/100000
    gstPercent := 18/100
    sebiChargesPercent := 1/1000000
    stampDutyPercentBuy := 3/100000 }

/-- `PaperTradingManager._calculate_charges`: round-trip brokerage, STT on
the sell value, transaction charges on total turnover, GST on brokerage
plus transaction charges, SEBI charges on turnover, stamp duty on the buy
value. -/
def calculateCharges (C : ChargeCfg) (entryPrice exitPrice : ℚ) (quantity : ℕ) : ℚ :=
  let brokerage := C.brokeragePerOrder * 2
  let stt := exitPrice * quantity * C.sttPercentSell
  let txn := (entryPrice + exitPrice) * quantity * C.txnChargesPercent
  let gst := (brokerage + txn) * C.gstPercent
  let sebi := (entryPrice + exitPrice) * quantity * C.sebiChargesPercent
  let stamp := entryPrice * quantity * C.stampDutyPercentBuy
  brokerage + stt + txn + gst + sebi + stamp

/-- One entry of `PaperTradingManager.active_positions`. The position dict
built by `open_position` (and by `_load_active_positions`) has no
`last_price` key; the field is an `Option` because `square_off_all` reads
it with `.get('last_price', entry_price)`. -/
structure Position where
  entryPrice : ℚ
  quantity : ℕ
  side : Side
  sl : ℚ
  tp : ℚ
  lastPrice : Option ℚ
deriving DecidableEq, Repr

/-- The position dict `open_position` stores: no `last_price` key. -/
def mkPosition (side : Side) (price : ℚ) (qty : ℕ) (sl tp : ℚ) : Position :=
  { entryPrice := price, quantity := qty, side := side, sl := sl, tp := tp,
    lastPrice := none }

/-- `active_positions`: a symbol-keyed map, as an association list. -/
abbrev PState := List (ℕ × Position)

/-- `PaperTradingManager.open_position`: if the symbol already has an open
paper position the new signal is ignored and the state is unchanged;
otherwise the position is stored. -/
def openPosition (ps : PState) (sym : ℕ) (side : Side) (price : ℚ) (qty : ℕ)
    (sl tp : ℚ) : PState :=
  if (ps.lookup sym).isSome then ps
  else (sym, mkPosition side price qty sl tp) :: ps

/-- Gross P&L by side (`_close_position`). -/
def grossPnl (side : Side) (entry exitP : ℚ) (qty : ℕ) : ℚ :=
  match side with
  | .buy => (exitP - entry) * qty
  | .sell => (entry - exitP) * qty

/-- The figures `_close_position` computes for a position closed at
`exitPrice`. -/
structure CloseResult where
  exitPrice : ℚ
  gross : ℚ
  charges : ℚ
  net : ℚ
deriving DecidableEq, Repr

/-- The P&L arithmetic of `PaperTradingManager._close_position`. -/
def closeCalc (C : ChargeCfg) (pos : Position) (exitPrice : ℚ) : CloseResult :=
  let gross := grossPnl pos.side pos.entryPrice exitPrice pos.quantity
  let charges := calculateCharges C pos.entryPrice exitPrice pos.quantity
  { exitPrice := exitPrice, gross := gross, charges := charges, net := gross - charges }

/-- `active_positions.pop(symbol)`: drop the entry for `sym`. -/
def removeKey (ps : PState) (sym : ℕ) : PState :=
  ps.filter (fun p => ¬ p.1 = sym)

/-- The exit price `square_off_all` uses:
`pos.get('last_price', pos['entry_price'])`. -/
def squareOffPrice (pos : Position) : ℚ :=
  pos.lastPrice.getD pos.entryPrice

/-- `PaperTradingManager.check_exits`: close (remove) the position when the
price hits SL or TP for its side; otherwise no change. -/
def checkExits (ps : PState) (sym : ℕ) (price : ℚ) : PState :=
  match ps.lookup sym with
  | none => ps
  | some pos =>
      let hit : Bool :=
        match pos.side with
        | .buy => price ≤ pos.sl ∨ pos.tp ≤ price
        | .sell => pos.sl ≤ price ∨ price ≤ pos.tp
      if hit then removeKey ps sym else ps

/-- `PaperTradingManager.square_off_all`: close every active position at
`pos.get('last_price', entry_price)`; afterwards the map is empty. -/
def squareOffAll (C : ChargeCfg) (ps : PState) : List (ℕ × CloseResult) :=
  ps.map (fun p => (p.1, closeCalc C p.2 (squareOffPrice p.2)))

/-- The operations that touch `active_positions`. -/
inductive POp where
  | openP (sym : ℕ) (side : Side) (price : ℚ) (qty : ℕ) (sl tp : ℚ)
  | exitP (sym : ℕ) (price : ℚ)
  | squareOff

def pStep (ps : PState) : POp → PState
  | .openP sym side price qty sl tp => openPosition ps sym side price qty sl tp
  | .exitP sym price => checkExits ps sym price
  | .squareOff => []

/-- Run a sequence of paper-trading operations from the empty map. -/
def pRun (ops : List POp) : PState :=
  ops.foldl pStep []

/-- A one-position state for concrete instantiations. -/
def wPos : Position := mkPosition Side.buy 100 2 95 110

/-- An operation sequence opening one position. -/
def wOps : List POp := [POp.openP 1 Side.buy 100 2 95 110]

/-- The square-off record for `wPos`. -/
def wPr : ℕ × CloseResult := (1, closeCalc defaultCharges wPos 100)

end Paper

namespace CandleAgg

/-- The tick fields `CandleManager` reads: last price, cumulative session
volume, and the timestamp floored to the minute (`candle_time`). -/
structure CTick where
  price : ℚ
  volume : ℤ
  bucket : ℤ
deriving DecidableEq, Repr

/-- One OHLCV candle (`current_candles` entry / closed candle dict). -/
structure Candle where
  bucket : ℤ
  o : ℚ
  h : ℚ
  l : ℚ
  c : ℚ
  volume : ℤ
deriving DecidableEq, Repr

/-- Per-symbol aggregator state: `last_volumes[symbol]`, the in-progress
candle, and the bounded closed-candle history. -/
structure CState where
  lastVolume : ℤ
  current : Option Candle
  closed : List Candle
deriving DecidableEq, Repr

/-- `last_volumes` is a `defaultdict(int)`: 0 before the first tick. -/
def initialCState : CState :=
  { lastVolume := 0, current := none, closed := [] }

/-- The volume-delta computation at the top of `update_candle`: the delta is
taken only when the previously seen cumulative volume is positive, and a
negative difference is clamped to 0. -/
def volumeDelta (lastVol cur : ℤ) : ℤ :=
  if 0 < lastVol then
    if cur - lastVol < 0 then 0 else cur - lastVol
  else 0

/-- Modelled from the claim's words, for comparison with `volumeDelta`:
per-tick volume contribution `max(0, cumulative - last_seen)`. -/
def claimDelta (lastVol cur : ℤ) : ℤ :=
  max 0 (cur - lastVol)

/-- `CandleManager._init_candle`. -/
def initCandle (t : CTick) (delta : ℤ) : Candle :=
  { bucket := t.bucket, o := t.price, h := t.price, l := t.price, c := t.price,
    volume := delta }

/-- `CandleManager._update_current_candle`. -/
def updCandle (cd : Candle) (t : CTick) (delta : ℤ) : Candle :=
  { cd with
    h := max cd.h t.price
    l := min cd.l t.price
    c := t.price
    volume := cd.volume + delta }

/-- `CandleManager.update_candle` / `_update_1m_candle` for one symbol:
compute the volume delta, remember the cumulative volume, then initialize,
update, roll over, or drop (late tick) the in-progress candle. -/
def updateCandle (s : CState) (t : CTick) : CState :=
  let delta := volumeDelta s.lastVolume t.volume
  let s2 := { s with lastVolume := t.volume }
  match s2.current with
  | none => { s2 with current := some (initCandle t delta) }
  | some cd =>
      if cd.bucket = t.bucket then
        { s2 with current := some (updCandle cd t delta) }
      else if cd.bucket < t.bucket then
        { s2 with closed := s2.closed ++ [cd], current := some (initCandle t delta) }
      else s2

/-- Feed a tick sequence to the aggregator. -/
def runTicks (ts : List CTick) : CState :=
  ts.foldl updateCandle initialCState

end CandleAgg

namespace Spike

/-- `SpikeDetector.__init__` default `window_size`; the global instance
`spike_detector = SpikeDetector()` uses it. -/
def windowSize : ℕ := 50

/-- The settings fields the detector reads (`config/settings.py`). -/
structure Params where
  spikeThreshold : ℚ
  volumeMultiplier : ℚ
  minSignalStrength : ℚ
deriving DecidableEq, Repr

/-- Defaults: spike_threshold 2.0, volume_multiplier 2.5,
min_signal_strength 0.6. -/
def defaultParams : Params :=
  { spikeThreshold := 2, volumeMultiplier := 5/2, minSignalStrength := 3/5 }

/-- The tick fields the detector reads, plus the arrival time in seconds
(carried only to timestamp emissions; `SpikeDetector` itself never reads
it). -/
structure STick where
  price : ℚ
  volume : ℤ
  time : ℚ
deriving DecidableEq, Repr

/-- Incremental running statistics (`price_stats` / `volume_stats`). -/
structure Stats where
  sum : ℚ
  sumSq : ℚ
  count : ℕ
deriving DecidableEq, Repr

def Stats.zero : Stats := { sum := 0, sumSq := 0, count := 0 }

/-- `SpikeDetector._update_stats`: on window overflow the evicted value's
contribution is subtracted before the new value is added. -/
def updStats (st : Stats) (v : ℚ) (old : Option ℚ) : Stats :=
  match old with
  | none => { sum := st.sum + v, sumSq := st.sumSq + v * v, count := st.count + 1 }
  | some o => { sum := st.sum - o + v, sumSq := st.sumSq - o * o + v * v,
                count := st.count - 1 + 1 }

/-- Per-symbol detector state. -/
structure SDState where
  initialized : Bool
  priceWindow : List ℚ
  volumeWindow : List ℚ
  priceStats : Stats
  volumeStats : Stats
  lastVolume : ℤ
deriving DecidableEq, Repr

def SDState.start : SDState :=
  { initialized := false, priceWindow := [], volumeWindow := [],
    priceStats := Stats.zero, volumeStats := Stats.zero, lastVolume := 0 }

inductive SigType where
  | spike
  | volumeSurge
  | momentum
deriving DecidableEq, Repr

/-- Appending to a `deque(maxlen=windowSize)`: evict the oldest first when
full. -/
def pushWindow (w : List ℚ) (v : ℚ) : List ℚ :=
  if w.length = windowSize then w.tail ++ [v] else w ++ [v]

/-- `old_val` passed to `_update_stats`: the about-to-be-evicted `window[0]`
when the window is full, `None` otherwise. -/
def oldOfWindow (w : List ℚ) : Option ℚ :=
  if w.length = windowSize then w.head? else none

/-- The price-spike emission test of `process_tick`. The source computes
`std = sqrt(variance) if variance > 0 else 0` and fires when
`std > 1e-6`, `z = |price - mean| / std > spike_threshold` and
`min(z / 10, 1) ≥ min_signal_strength`; here those comparisons are encoded
by their squares, which is equivalent for the nonnegative threshold and
strength settings the program uses. -/
def spikeFires (P : Params) (price mean variance : ℚ) : Bool :=
  1/10^12 < variance ∧
  P.spikeThreshold^2 * variance < (price - mean)^2 ∧
  (10 * P.minSignalStrength)^2 * variance ≤ (price - mean)^2 ∧
  P.minSignalStrength ≤ 1

/-- The volume-surge emission test: `avg > 0`, `ratio > volume_multiplier`,
`min(ratio / 10, 1) ≥ min_signal_strength`. -/
def volSurgeFires (P : Params) (tickVol avgVol : ℚ) : Bool :=
  0 < avgVol ∧
  P.volumeMultiplier < tickVol / avgVol ∧
  P.minSignalStrength ≤ min (tickVol / avgVol / 10) 1

/-- The momentum emission test: window start price positive,
`|roc| > 1.5` percent, `min(|roc| / 5, 1) ≥ min_signal_strength`. -/
def momentumFires (P : Params) (price startPrice : ℚ) : Bool :=
  0 < startPrice ∧
  3/2 < |(price - startPrice) / startPrice * 100| ∧
  P.minSignalStrength ≤ min (|(price - startPrice) / startPrice * 100| / 5) 1

/-- `SpikeDetector.process_tick` for one symbol: the first tick only
initializes the state; later ticks update the windows and incremental
statistics, and once at least 10 price samples exist the three detection
tests run against the running sums. -/
def processTick (P : Params) (s : SDState) (t : STick) : SDState × List SigType :=
  if ¬ s.initialized then
    ({ initialized := true, priceWindow := [], volumeWindow := [],
       priceStats := Stats.zero, volumeStats := Stats.zero,
       lastVolume := t.volume }, [])
  else
    let tickVol : ℚ := ((t.volume - s.lastVolume : ℤ) : ℚ)
    let oldP := oldOfWindow s.priceWindow
    let pw := pushWindow s.priceWindow t.price
    let pstats := updStats s.priceStats t.price oldP
    let vw := if 0 < tickVol then pushWindow s.volumeWindow tickVol else s.volumeWindow
    let vstats :=
      if 0 < tickVol then updStats s.volumeStats tickVol (oldOfWindow s.volumeWindow)
      else s.volumeStats
    let s2 : SDState :=
      { initialized := true, priceWindow := pw, volumeWindow := vw,
        priceStats := pstats, volumeStats := vstats, lastVolume := t.volume }
    if pstats.count < 10 then (s2, [])
    else
      let n : ℚ := (pstats.count : ℚ)
      let mean := pstats.sum / n
      let variance := pstats.sumSq / n - mean * mean
      let sigs1 := if spikeFires P t.price mean variance then [SigType.spike] else []
      let sigs2 :=
        if 10 ≤ vstats.count ∧ 0 < tickVol then
          (if volSurgeFires P tickVol (vstats.sum / (vstats.count : ℚ))
           then [SigType.volumeSurge] else [])
        else []
      let sigs3 :=
        match pw.head? with
        | some sp => if momentumFires P t.price sp then [SigType.momentum] else []
        | none => []
      (s2, sigs1 ++ sigs2 ++ sigs3)

/-- The detector state after a tick sequence. -/
def sdRun (P : Params) (ts : List STick) : SDState :=
  ts.foldl (fun s t => (processTick P s t).1) SDState.start

/-- All signals the detector itself emits over a tick sequence, tagged with
the emitting tick's arrival time. -/
def sdEmissions (P : Params) : SDState → List STick → List (ℚ × SigType)
  | _, [] => []
  | s, t :: ts =>
      let r := processTick P s t
      r.2.map (fun k => (t.time, k)) ++ sdEmissions P r.1 ts

/-- Mean from the running statistics, as `process_tick` derives it. -/
def incMean (st : Stats) : ℚ := st.sum / (st.count : ℚ)

/-- Variance from the running statistics:
`sum_sq / n - mean^2` as in `process_tick`. -/
def incVar (st : Stats) : ℚ := st.sumSq / (st.count : ℚ) - incMean st * incMean st

/-- Full recomputation over the values currently in the window: mean. -/
def listMean (l : List ℚ) : ℚ := l.sum / (l.length : ℚ)

/-- Full recomputation over the values currently in the window: variance as
the mean squared deviation. -/
def listVar (l : List ℚ) : ℚ :=
  ((l.map (fun x => (x - listMean l)^2)).sum) / (l.length : ℚ)

/-- The state component of `processTick` alone (the emission branch does not
change the state). -/
def stepState (s : SDState) (t : STick) : SDState :=
  if ¬ s.initialized then
    { initialized := true, priceWindow := [], volumeWindow := [],
      priceStats := Stats.zero, volumeStats := Stats.zero,
      lastVolume := t.volume }
  else
    let tickVol : ℚ := ((t.volume - s.lastVolume : ℤ) : ℚ)
    { initialized := true
      priceWindow := pushWindow s.priceWindow t.price
      volumeWindow := if 0 < tickVol then pushWindow s.volumeWindow tickVol
                      else s.volumeWindow
      priceStats := updStats s.priceStats t.price (oldOfWindow s.priceWindow)
      volumeStats := if 0 < tickVol then
                       updStats s.volumeStats tickVol (oldOfWindow s.volumeWindow)
                     else s.volumeStats
      lastVolume := t.volume }

/-- The running statistics agree with the windows they summarize, and the
windows respect the deque bound. -/
def coherent (s : SDState) : Prop :=
  s.priceStats.sum = s.priceWindow.sum ∧
  s.priceStats.sumSq = (s.priceWindow.map (fun x => x * x)).sum ∧
  s.priceStats.count = s.priceWindow.length ∧
  s.priceWindow.length ≤ windowSize ∧
  s.volumeStats.sum = s.volumeWindow.sum ∧
  s.volumeStats.sumSq = (s.volumeWindow.map (fun x => x * x)).sum ∧
  s.volumeStats.count = s.volumeWindow.length ∧
  s.volumeWindow.length ≤ windowSize

/-- A tick sequence on which the detector emits MOMENTUM on two consecutive
ticks: 11 ticks at price 100 followed by two at 104, constant cumulative
volume, one second apart. -/
def exTicks : List STick :=
  [⟨100, 1000, 1⟩, ⟨100, 1000, 2⟩, ⟨100, 1000, 3⟩, ⟨100, 1000, 4⟩,
   ⟨100, 1000, 5⟩, ⟨100, 1000, 6⟩, ⟨100, 1000, 7⟩, ⟨100, 1000, 8⟩,
   ⟨100, 1000, 9⟩, ⟨100, 1000, 10⟩, ⟨100, 1000, 11⟩,
   ⟨104, 1000, 12⟩, ⟨104, 1000, 13⟩]

end Spike

namespace SvcCool

/-- `SignalService.cooldown_seconds`. -/
def cooldownSeconds : ℚ := 60

/-- `self._last_signal_time[cooldown_key] = now` for one instrument: the
map from signal type to the time of the last emission. -/
def update (last : Spike.SigType → Option ℚ) (k : Spike.SigType) (t : ℚ) :
    Spike.SigType → Option ℚ :=
  fun k2 => if k2 = k then some t else last k2

/-- The cooldown filter inside `SignalService.process_tick`, for one
instrument: each candidate signal `(now, type)` is dropped when the last
emission of the same type is less than `cooldown_seconds` old, and
otherwise emitted, stamping the last-emission map. -/
def emitFilter (last : Spike.SigType → Option ℚ) :
    List (ℚ × Spike.SigType) → List (ℚ × Spike.SigType)
  | [] => []
  | (t, k) :: rest =>
      match last k with
      | none => (t, k) :: emitFilter (update last k t) rest
      | some t0 =>
          if t - t0 < cooldownSeconds then emitFilter last rest
          else (t, k) :: emitFilter (update last k t) rest

/-- A fresh service: `_last_signal_time = {}`. -/
def serviceEmit (l : List (ℚ × Spike.SigType)) : List (ℚ × Spike.SigType) :=
  emitFilter (fun _ => none) l

/-- Candidate momentum signals at 0s, 30s and 70s. -/
def wCandidates : List (ℚ × Spike.SigType) :=
  [(0, Spike.SigType.momentum), (30, Spike.SigType.momentum),
   (70, Spike.SigType.momentum)]

end SvcCool

namespace Monitor

/-- The `Trade` columns `monitor_positions` reads and writes. -/
structure MTrade where
  entryPrice : ℚ
  currentPrice : ℚ
  takeProfitPrice : Option ℚ
  stopLossPrice : Option ℚ
  trailingStopPrice : Option ℚ
  status : Risk.TStatus
deriving DecidableEq, Repr

/-- Python `a or b` on optional floats: `None` and `0.0` are both falsy. -/
def pyOr (a b : Option ℚ) : Option ℚ :=
  match a with
  | some x => if x = 0 then b else some x
  | none => b

/-- Python truthiness of an optional float. -/
def pyTruthy (a : Option ℚ) : Bool :=
  match a with
  | some x => ¬ x = 0
  | none => false

/-- One `monitor_positions` iteration for one OPEN trade, given the resolved
current price (live or cache fallback): check take-profit, then the
stop-loss threshold (`trailing_stop_price or stop_loss_price`), else
ratchet the trailing stop when the price is above entry and the candidate
`price * (1 - trailing_stop_percent)` exceeds the existing threshold. -/
def monitorStep (trailingStopPercent : ℚ) (tr : MTrade) (price : ℚ) : MTrade :=
  let slThreshold := pyOr tr.trailingStopPrice tr.stopLossPrice
  if ¬ price = 0 ∧ pyTruthy tr.takeProfitPrice ∧ pyTruthy slThreshold then
    let tr2 := { tr with currentPrice := price }
    match tr.takeProfitPrice, slThreshold with
    | some tp, some slt =>
        if tp ≤ price then { tr2 with status := Risk.TStatus.takeProfit }
        else if price ≤ slt then { tr2 with status := Risk.TStatus.stoppedOut }
        else if tr.entryPrice < price then
          let newTsl := price * (1 - trailingStopPercent)
          match pyOr tr.trailingStopPrice tr.stopLossPrice with
          | some ct => if ct < newTsl then { tr2 with trailingStopPrice := some newTsl } else tr2
          | none => tr2
        else tr2
    | _, _ => tr2
  else tr

/-- A concrete open trade for instantiation: entry 100, TP 104, SL and
trailing SL 95. -/
def wTrade : MTrade :=
  { entryPrice := 100, currentPrice := 100, takeProfitPrice := some 104,
    stopLossPrice := some 95, trailingStopPrice := some 95,
    status := Risk.TStatus.opened }

end Monitor

namespace WsConn

/-- The outcome of one handshake attempt inside `connect`, as observed by
the code's branches: HTTP 200 with a session URI, HTTP 200 without one,
HTTP 401, HTTP 429, another HTTP status, or a network-level exception. -/
inductive HResp where
  | ok200
  | okNoUri
  | auth401
  | rate429
  | httpErr
  | netErr
deriving DecidableEq, Repr

/-- The observable outcome of `UpstoxWebSocketClient.connect`: whether it
returned True, how many expired-token operator alerts were sent, how many
handshake (authorize) requests were issued, and the resulting
`reconnect_attempts` and `network_error_count` counters. -/
structure ConnOutcome where
  connected : Bool
  authAlerts : ℕ
  handshakeCalls : ℕ
  reconnectAttempts : ℕ
  networkErrors : ℕ
deriving DecidableEq, Repr

/-- `max_retries` of the authorize loop in `connect`. -/
def maxRetries : ℕ := 3

/-- The authorize retry loop of `connect`, consuming one handshake response
per iteration; `fuel` is the number of loop iterations left, `wsOk` is
whether the follow-up socket open (step 2) would succeed, `recon` and
`nerr` are the counters on entry, `calls` the requests issued so far. -/
def connectGo (wsOk : Bool) (recon nerr calls : ℕ) :
    ℕ → List HResp → ConnOutcome
  | 0, _ =>
      { connected := false, authAlerts := 0, handshakeCalls := calls,
        reconnectAttempts := recon, networkErrors := nerr }
  | _ + 1, [] =>
      { connected := false, authAlerts := 0, handshakeCalls := calls,
        reconnectAttempts := recon, networkErrors := nerr }
  | fuel + 1, r :: rs =>
      match r with
      | HResp.ok200 =>
          if wsOk then
            { connected := true, authAlerts := 0, handshakeCalls := calls + 1,
              reconnectAttempts := 0, networkErrors := 0 }
          else
            { connected := false, authAlerts := 0, handshakeCalls := calls + 1,
              reconnectAttempts := recon, networkErrors := nerr + 1 }
      | HResp.okNoUri =>
          { connected := false, authAlerts := 0, handshakeCalls := calls + 1,
            reconnectAttempts := recon, networkErrors := 0 }
      | HResp.auth401 =>
          { connected := false, authAlerts := 1, handshakeCalls := calls + 1,
            reconnectAttempts := recon, networkErrors := 0 }
      | HResp.rate429 => connectGo wsOk recon nerr (calls + 1) fuel rs
      | HResp.httpErr =>
          if 0 < fuel then connectGo wsOk recon nerr (calls + 1) fuel rs
          else
            { connected := false, authAlerts := 0, handshakeCalls := calls + 1,
              reconnectAttempts := recon, networkErrors := nerr + 1 }
      | HResp.netErr =>
          if 0 < fuel then connectGo wsOk recon nerr (calls + 1) fuel rs
          else
            { connected := false, authAlerts := 0, handshakeCalls := calls + 1,
              reconnectAttempts := recon, networkErrors := nerr + 1 }

/-- `UpstoxWebSocketClient.connect`. -/
def connect (wsOk : Bool) (recon nerr : ℕ) (rs : List HResp) : ConnOutcome :=
  connectGo wsOk recon nerr 0 maxRetries rs

/-- One `price_cache` entry (`_cache_price`). -/
structure CacheEntry where
  price : ℚ
  timeUnix : ℚ
deriving DecidableEq, Repr

/-- `_cache_price`: store price and timestamp for the symbol. -/
def cachePrice (cache : List (ℕ × CacheEntry)) (sym : ℕ) (price now : ℚ) :
    List (ℕ × CacheEntry) :=
  (sym, { price := price, timeUnix := now }) :: cache.filter (fun p => ¬ p.1 = sym)

/-- `get_cached_price`, with the staleness threshold as a parameter.
Modelled from the spec: `PRICE_CACHE_TIMEOUT` (the explicit staleness
threshold in seconds) is referenced by `client.py` but its defining
constant is not part of this source snapshot. -/
def getCachedPrice (timeout : ℚ) (cache : List (ℕ × CacheEntry)) (now : ℚ)
    (sym : ℕ) : Option ℚ :=
  match cache.lookup sym with
  | none => none
  | some e => if timeout < now - e.timeUnix then none else some e.price

/-- `WEBSOCKET_RECONNECT_DELAY` (`config/constants.py`). -/
def baseReconnectDelay : ℚ := 5

/-- `WEBSOCKET_MAX_RECONNECT_ATTEMPTS` (`config/constants.py`). -/
def maxReconnectAttempts : ℕ := 10

/-- The hardcoded 5-minute cap in `_attempt_reconnect`. -/
def maxDelay : ℚ := 300

/-- `exponential_delay = base * 2 ** min(attempts - 1, 5)` for the
post-increment attempt counter. -/
def exponentialDelay (attempt : ℕ) : ℚ :=
  baseReconnectDelay * 2 ^ (min (attempt - 1) 5)

/-- `wait_time = min(exponential_delay + jitter, 300)`, with the sampled
jitter value as a parameter. Modelled from the spec where the sampling
bound is concerned: `WEBSOCKET_RECONNECT_JITTER` (the jitter fraction) is
imported by `client.py` but its defining constant is not part of this
source snapshot, so the jitter is left abstract. -/
def waitTime (attempt : ℕ) (jitter : ℚ) : ℚ :=
  min (exponentialDelay attempt + jitter) maxDelay

/-- Modelled from the claim's words, for comparison with `waitTime`:
`min(max_delay, base_delay * 2 ** attempt) + jitter`. -/
def specDelay (attempt : ℕ) (jitter : ℚ) : ℚ :=
  min maxDelay (baseReconnectDelay * 2 ^ attempt) + jitter

/-- The attempt gate of `_attempt_reconnect`: once the counter has reached
the cap no sleep is computed; otherwise the counter is incremented and the
sleep for the new counter value is computed. -/
def attemptReconnectSleep (attempts : ℕ) (jitter : ℚ) : Option ℚ :=
  if maxReconnectAttempts ≤ attempts then none
  else some (waitTime (attempts + 1) jitter)

end WsConn

/-! ## Supporting lemmas -/


namespace Paper

/-- No operation ever writes a `last_price` field into a stored position. -/
theorem pRun_lastPrice_none (ops : List POp) :
    ∀ p ∈ pRun ops, p.2.lastPrice = none := by
  have main : ∀ (ops : List POp) (ps : PState),
      (∀ p ∈ ps, p.2.lastPrice = none) →
      ∀ p ∈ ops.foldl pStep ps, p.2.lastPrice = none := by
    intro ops
    induction ops with
    | nil => intro ps h; simpa using h
    | cons op rest ih =>
        intro ps h
        refine ih (pStep ps op) ?_
        intro p hp
        cases op with
        | openP sym side price qty sl tp =>
            simp only [pStep, openPosition] at hp
            split at hp
            · exact h p hp
            · rcases List.mem_cons.mp hp with hp2 | hp2
              · subst hp2; rfl
              · exact h p hp2
        | exitP sym price =>
            simp only [pStep, checkExits] at hp
            split at hp
            · exact h p hp
            · split at hp
              · exact h p (List.mem_of_mem_filter hp)
              · exact h p hp
        | squareOff => simp [pStep] at hp
  exact main ops [] (by simp)

end Paper

/-! ## Claims -/

namespace Risk

/-- C2: `validate_trade` returns true iff the OPEN-trade count is below the
max-concurrent limit, today's realized pnl lies strictly between the
negated daily loss limit and the daily profit target (both fractions of
the current equity recomputed from the full trade history), today's trade
count is below the daily cap, and no OPEN trade exists for the instrument;
with current equity 100000 and a 2% loss limit, an open is denied once
today's realized loss reaches -2000. -/
theorem validateTrade_characterization :
    (∀ (S : RiskSettings) (db : List TradeRec) (sym : ℕ),
      validateTrade S db sym = true ↔
        (openCount db < S.maxConcurrentPositions ∧
         -(currentEquity S db * S.dailyLossLimit) < todayPnl db ∧
         todayPnl db < currentEquity S db * S.dailyProfitTarget ∧
         (tradesToday db).length < S.maxTradesPerDay ∧
         hasOpenFor db sym = false)) ∧
    currentEquity scenarioSettings scenarioDb = 100000 ∧
    todayPnl scenarioDb = -2000 ∧
    validateTrade scenarioSettings scenarioDb 1 = false := by
  refine ⟨?_,
    by norm_num [currentEquity, cumulativePnl, scenarioSettings, scenarioDb,
      TStatus.isTerminal],
    by norm_num [todayPnl, tradesToday, scenarioDb],
    by norm_num [validateTrade, openCount, todayPnl, tradesToday, currentEquity,
      cumulativePnl, scenarioSettings, scenarioDb, hasOpenFor, TStatus.isTerminal]⟩
  intro S db sym
  unfold validateTrade
  split_ifs with h1 h2 h3 h4 h5
  · simp only [Bool.false_eq_true, false_iff]
    rintro ⟨hc, _⟩
    omega
  · simp only [Bool.false_eq_true, false_iff]
    rintro ⟨_, hc, _⟩
    linarith
  · simp only [Bool.false_eq_true, false_iff]
    rintro ⟨_, _, hc, _⟩
    linarith
  · simp only [Bool.false_eq_true, false_iff]
    rintro ⟨_, _, _, hc, _⟩
    omega
  · simp only [Bool.false_eq_true, false_iff]
    rintro ⟨_, _, _, _, hc⟩
    rw [h5] at hc
    exact absurd hc (by simp)
  · simp only [true_iff]
    exact ⟨by omega, by linarith, by linarith, by omega, by simpa using h5⟩

/-- C1: the one-open-trade-per-instrument invariant does not survive
concurrent signal arrivals: with two in-flight `handle_signal` open
attempts for instrument 1, the event-loop schedule validate(A),
validate(B), insert(A), insert(B) — each validation running while the
other task is suspended at the awaited order placement — commits two OPEN
trades for instrument 1 (no DB uniqueness constraint stops the second),
whereas the non-interleaved schedule of the same two attempts leaves
exactly one, the second being rejected by `validate_trade` as the claim
intends. -/
theorem concurrent_open_race :
    openCountFor (concRun defaultSettings raceTasks [0, 1, 0, 1]).db 1 = 2 ∧
    ¬ oneOpenInv (concRun defaultSettings raceTasks [0, 1, 0, 1]).db ∧
    openCountFor (concRun defaultSettings raceTasks [0, 0, 1, 1]).db 1 = 1 := by
  have h1 : openCountFor (concRun defaultSettings raceTasks [0, 1, 0, 1]).db 1 = 2 := by
    norm_num [concRun, concStep, raceTasks, validateTrade, openCount, todayPnl,
      tradesToday, currentEquity, cumulativePnl, hasOpenFor, defaultSettings,
      openCountFor, TStatus.isTerminal, List.filter_cons]
  have h3 : openCountFor (concRun defaultSettings raceTasks [0, 0, 1, 1]).db 1 = 1 := by
    norm_num [concRun, concStep, raceTasks, validateTrade, openCount, todayPnl,
      tradesToday, currentEquity, cumulativePnl, hasOpenFor, defaultSettings,
      openCountFor, TStatus.isTerminal, List.filter_cons]
  refine ⟨h1, fun hinv => ?_, h3⟩
  have h2 := hinv 1
  rw [h1] at h2
  omega

end Risk

namespace Paper

/-- C10: every position reachable through the paper-trading operations has
no `last_price` field, so a forced square-off closes it exactly at its
entry price: the gross P&L is 0 and the net P&L is minus the round-trip
charges. -/
theorem squareOff_exits_at_entry (ops : List POp) (C : ChargeCfg) :
    ∀ pr ∈ squareOffAll C (pRun ops),
      ∃ p ∈ pRun ops,
        pr.1 = p.1 ∧
        pr.2.exitPrice = p.2.entryPrice ∧
        pr.2.gross = 0 ∧
        pr.2.net = -(calculateCharges C p.2.entryPrice p.2.entryPrice p.2.quantity) := by
  intro pr hpr
  rcases List.mem_map.mp hpr with ⟨p, hp, heq⟩
  have hnone : p.2.lastPrice = none := pRun_lastPrice_none ops p hp
  have hoff : squareOffPrice p.2 = p.2.entryPrice := by
    simp [squareOffPrice, hnone]
  refine ⟨p, hp, ?_, ?_, ?_, ?_⟩
  · rw [← heq]
  · rw [← heq]
    simp [closeCalc, hoff]
  · rw [← heq]
    simp only [closeCalc, hoff]
    cases hside : p.2.side <;> simp [grossPnl]
  · rw [← heq]
    simp only [closeCalc, hoff]
    cases hside : p.2.side <;> simp [grossPnl]

/-- Witness for C10: squaring off a freshly opened BUY position. -/
theorem squareOff_exits_at_entry_witness :
    ∃ p ∈ pRun wOps,
      wPr.1 = p.1 ∧
      wPr.2.exitPrice = p.2.entryPrice ∧
      wPr.2.gross = 0 ∧
      wPr.2.net = -(calculateCharges defaultCharges p.2.entryPrice p.2.entryPrice p.2.quantity) :=
  squareOff_exits_at_entry wOps defaultCharges wPr
    (by simp [wPr, wPos, wOps, pRun, pStep, openPosition, squareOffAll,
       squareOffPrice, mkPosition])

end Paper

namespace CandleAgg

/-- C3 counterexample: the per-tick volume contribution is not
`max(0, cumulative - last_seen)` when the last seen cumulative volume is
0 - the code contributes 0 there - as exercised by the cumulative-volume
sequence 5, 0, 7 inside one bucket, whose candle volume stays 0 although
the claim's formula assigns the third tick a contribution of 7. -/
theorem volumeDelta_ne_claimDelta :
    volumeDelta 0 7 = 0 ∧
    claimDelta 0 7 = 7 ∧
    volumeDelta 0 7 ≠ claimDelta 0 7 ∧
    (runTicks [⟨100, 5, 0⟩, ⟨100, 0, 0⟩, ⟨100, 7, 0⟩]).current =
      some { bucket := 0, o := 100, h := 100, l := 100, c := 100, volume := 0 } := by
  decide

/-- C3 amended: the contribution is nonnegative for every tick, equals
`max(0, cumulative - last_seen)` whenever the last seen cumulative volume
is positive, and is 0 otherwise (first tick of a session, or after a tick
with cumulative volume 0); the scenario with cumulative volumes 1000,
1200, 1150 in one bucket yields candle volume 200 and close equal to the
last tick's price. -/
theorem volumeDelta_amended :
    (∀ lastVol cur : ℤ, 0 ≤ volumeDelta lastVol cur) ∧
    (∀ lastVol cur : ℤ, 0 < lastVol → volumeDelta lastVol cur = claimDelta lastVol cur) ∧
    (∀ lastVol cur : ℤ, ¬ 0 < lastVol → volumeDelta lastVol cur = 0) ∧
    (runTicks [⟨100, 1000, 0⟩, ⟨101, 1200, 0⟩, ⟨99, 1150, 0⟩]).current =
      some { bucket := 0, o := 100, h := 101, l := 99, c := 99, volume := 200 } := by
  refine ⟨?_, ?_, ?_, by decide⟩
  · intro lastVol cur
    unfold volumeDelta
    split_ifs <;> omega
  · intro lastVol cur h
    unfold volumeDelta claimDelta
    split_ifs <;> omega
  · intro lastVol cur h
    unfold volumeDelta
    split_ifs <;> omega

/-- Witness for C3 amended at a concrete positive last-seen volume. -/
theorem volumeDelta_amended_witness :
    (0 : ℤ) < 5 ∧ volumeDelta 5 9 = claimDelta 5 9 :=
  ⟨by decide, volumeDelta_amended.2.1 5 9 (by decide)⟩

end CandleAgg

namespace WsConn

/-- C7: a 401 handshake response makes `connect` fail immediately: exactly
one handshake request was issued (no retry, whatever responses would come
next), exactly one expired-token alert is sent, and the reconnect-attempt
counter is untouched. -/
theorem auth401_terminal (wsOk : Bool) (recon nerr : ℕ) (rest : List HResp) :
    connect wsOk recon nerr (HResp.auth401 :: rest) =
      { connected := false, authAlerts := 1, handshakeCalls := 1,
        reconnectAttempts := recon, networkErrors := 0 } := by
  rfl

/-- C8: the price-cache query returns the cached price exactly when an entry
exists whose age is within the staleness threshold, and `None` exactly
when no entry exists or the entry is older than the threshold; it is a
total function, so callers always receive an optional price. -/
theorem getCachedPrice_characterization :
    (∀ (timeout : ℚ) (cache : List (ℕ × CacheEntry)) (now : ℚ) (sym : ℕ) (p : ℚ),
      getCachedPrice timeout cache now sym = some p ↔
        ∃ e, cache.lookup sym = some e ∧ now - e.timeUnix ≤ timeout ∧ p = e.price) ∧
    (∀ (timeout : ℚ) (cache : List (ℕ × CacheEntry)) (now : ℚ) (sym : ℕ),
      getCachedPrice timeout cache now sym = none ↔
        cache.lookup sym = none ∨
        ∃ e, cache.lookup sym = some e ∧ timeout < now - e.timeUnix) := by
  constructor
  · intro timeout cache now sym p
    unfold getCachedPrice
    cases h : cache.lookup sym with
    | none => simp
    | some e =>
        simp only [h, Option.some.injEq]
        split_ifs with ht
        · constructor
          · intro hc
            exact absurd hc (by simp)
          · rintro ⟨e2, he2, hle, hp⟩
            cases he2
            exact absurd ht (not_lt.mpr hle)
        · constructor
          · intro hp
            exact ⟨e, rfl, not_lt.mp ht, (Option.some_inj.mp hp).symm⟩
          · rintro ⟨e2, he2, hle, hp⟩
            cases he2
            rw [hp]
  · intro timeout cache now sym
    unfold getCachedPrice
    cases h : cache.lookup sym with
    | none => simp
    | some e =>
        simp only [h]
        split_ifs with ht
        · simp only [true_iff]
          exact Or.inr ⟨e, rfl, ht⟩
        · simp only [reduceCtorEq, false_iff, not_or, not_exists]
          refine ⟨by simp, ?_⟩
          rintro e2 ⟨he2, hlt⟩
          cases he2
          exact ht hlt

/-- C9 counterexample: the sleep the code computes is not
`min(max_delay, base_delay * 2 ** attempt) + jitter`: at attempt counter 7
with zero jitter the code sleeps `min(5 * 2 ** min(6, 5), 300) = 160`
seconds while the claim's formula gives `min(300, 5 * 2 ** 7) = 300`. -/
theorem waitTime_ne_specDelay :
    waitTime 7 0 = 160 ∧ specDelay 7 0 = 300 ∧ waitTime 7 0 ≠ specDelay 7 0 := by
  refine ⟨?_, ?_, ?_⟩ <;>
    norm_num [waitTime, specDelay, exponentialDelay, maxDelay, baseReconnectDelay]

/-- C9 amended: the sleep equals
`min(base * 2 ** min(attempt - 1, 5) + jitter, 300)`; for a fixed jitter it
is non-decreasing in the attempt counter, it never exceeds the 300-second
cap (hence never the cap plus a nonnegative jitter), and it is computed
for every failure unless the attempt counter has reached the hard cap. -/
theorem backoff_amended :
    (∀ a b : ℕ, a ≤ b → ∀ j : ℚ, waitTime a j ≤ waitTime b j) ∧
    (∀ (a : ℕ) (j : ℚ), 0 ≤ j → waitTime a j ≤ maxDelay ∧ waitTime a j ≤ maxDelay + j) ∧
    (∀ (attempts : ℕ) (j : ℚ), maxReconnectAttempts ≤ attempts →
        attemptReconnectSleep attempts j = none) ∧
    (∀ (attempts : ℕ) (j : ℚ), attempts < maxReconnectAttempts →
        attemptReconnectSleep attempts j = some (waitTime (attempts + 1) j)) := by
  refine ⟨?_, ?_, ?_, ?_⟩
  · intro a b hab j
    unfold waitTime exponentialDelay
    have hpow : (2 : ℚ) ^ (min (a - 1) 5) ≤ 2 ^ (min (b - 1) 5) := by
      apply pow_le_pow_right₀ (by norm_num)
      omega
    have hbase : (0 : ℚ) ≤ baseReconnectDelay := by norm_num [baseReconnectDelay]
    have := mul_le_mul_of_nonneg_left hpow hbase
    exact min_le_min (by linarith) le_rfl
  · intro a j hj
    refine ⟨min_le_right _ _, ?_⟩
    calc waitTime a j ≤ maxDelay := min_le_right _ _
    _ ≤ maxDelay + j := le_add_of_nonneg_right hj
  · intro attempts j h
    simp [attemptReconnectSleep, h]
  · intro attempts j h
    have : ¬ maxReconnectAttempts ≤ attempts := by omega
    simp [attemptReconnectSleep, this]

/-- Witness for C9 amended at concrete attempt counters and jitter. -/
theorem backoff_amended_witness :
    ((3 : ℕ) ≤ 5 ∧ waitTime 3 1 ≤ waitTime 5 1) ∧
    ((0 : ℚ) ≤ 1 ∧ waitTime 4 1 ≤ maxDelay ∧ waitTime 4 1 ≤ maxDelay + 1) ∧
    (maxReconnectAttempts ≤ 10 ∧ attemptReconnectSleep 10 0 = none) ∧
    ((2 : ℕ) < maxReconnectAttempts ∧ attemptReconnectSleep 2 0 = some (waitTime 3 0)) :=
  ⟨⟨by norm_num, backoff_amended.1 3 5 (by norm_num) 1⟩,
   ⟨by norm_num, backoff_amended.2.1 4 1 (by norm_num)⟩,
   ⟨by norm_num [maxReconnectAttempts],
    backoff_amended.2.2.1 10 0 (by norm_num [maxReconnectAttempts])⟩,
   ⟨by norm_num [maxReconnectAttempts],
    backoff_amended.2.2.2 2 0 (by norm_num [maxReconnectAttempts])⟩⟩

end WsConn

namespace Monitor

/-- C6: on a monitor iteration in which the trade stays OPEN, the trailing
stop is never lowered: it either keeps its value or moves up toward the
current price, and it changes only when the current price is above the
entry price, to `price * (1 - trailing_stop_percent)`, which exceeds the
previous threshold and is at most the current price. -/
theorem trailingStop_monotone (pct : ℚ) (tr : MTrade) (price : ℚ)
    (hpr : 0 ≤ price) (h0 : 0 ≤ pct) (h1 : pct ≤ 1)
    (hopen : tr.status = Risk.TStatus.opened)
    (hstill : (monitorStep pct tr price).status = Risk.TStatus.opened) :
    (∀ t, tr.trailingStopPrice = some t →
        ∃ u, (monitorStep pct tr price).trailingStopPrice = some u ∧
          t ≤ u ∧ u ≤ max t price) ∧
    ((monitorStep pct tr price).trailingStopPrice ≠ tr.trailingStopPrice →
        tr.entryPrice < price ∧
        (monitorStep pct tr price).trailingStopPrice = some (price * (1 - pct)) ∧
        price * (1 - pct) ≤ price) := by
  have hfac : price * (1 - pct) ≤ price := by nlinarith
  have hfac0 : 0 ≤ price * (1 - pct) := by nlinarith
  have key : (monitorStep pct tr price).trailingStopPrice = tr.trailingStopPrice ∨
      (tr.entryPrice < price ∧
       (monitorStep pct tr price).trailingStopPrice = some (price * (1 - pct)) ∧
       (∀ t, tr.trailingStopPrice = some t → t ≤ price * (1 - pct))) := by
    unfold monitorStep
    by_cases hguard : ¬ price = 0 ∧ pyTruthy tr.takeProfitPrice ∧
        pyTruthy (pyOr tr.trailingStopPrice tr.stopLossPrice)
    · rw [if_pos hguard]
      rcases htp : tr.takeProfitPrice with _ | tp
      · exact Or.inl rfl
      · rcases hsl : pyOr tr.trailingStopPrice tr.stopLossPrice with _ | slt
        · exact Or.inl rfl
        · simp only
          by_cases htphit : tp ≤ price
          · rw [if_pos htphit]
            exact Or.inl rfl
          · rw [if_neg htphit]
            by_cases hslhit : price ≤ slt
            · rw [if_pos hslhit]
              exact Or.inl rfl
            · rw [if_neg hslhit]
              by_cases hentry : tr.entryPrice < price
              · rw [if_pos hentry]
                by_cases hct : slt < price * (1 - pct)
                · rw [if_pos hct]
                  refine Or.inr ⟨hentry, rfl, ?_⟩
                  intro t ht
                  rw [ht] at hsl
                  simp only [pyOr] at hsl
                  by_cases ht0 : t = 0
                  · rw [ht0]
                    exact hfac0
                  · rw [if_neg ht0] at hsl
                    rw [Option.some_inj.mp hsl]
                    exact le_of_lt hct
                · rw [if_neg hct]
                  exact Or.inl rfl
              · rw [if_neg hentry]
                exact Or.inl rfl
    · rw [if_neg hguard]
      exact Or.inl rfl
  constructor
  · intro t ht
    rcases key with hkey | ⟨_, hkey, hle⟩
    · exact ⟨t, by rw [hkey, ht], le_rfl, le_max_left _ _⟩
    · exact ⟨price * (1 - pct), hkey, hle t ht, le_trans hfac (le_max_right _ _)⟩
  · intro hne
    rcases key with hkey | ⟨hentry, hkey, _⟩
    · exact absurd hkey hne
    · exact ⟨hentry, hkey, hfac⟩

/-- Witness for C6: entry 100, trailing stop 95, price 101 with a 2%
trailing percentage; the stop ratchets up to 98.98. -/
theorem trailingStop_monotone_witness :
    ∃ u, (monitorStep (1/50) wTrade 101).trailingStopPrice = some u ∧
      (95 : ℚ) ≤ u ∧ u ≤ max 95 101 :=
  (trailingStop_monotone (1/50) wTrade 101 (by norm_num) (by norm_num)
    (by norm_num) (by rfl)
    (by norm_num [monitorStep, wTrade, pyOr, pyTruthy])).1 95 (by rfl)

end Monitor

namespace Spike

theorem processTick_fst (P : Params) (s : SDState) (t : STick) :
    (processTick P s t).1 = stepState s t := by
  unfold processTick stepState
  by_cases hinit : ¬ s.initialized
  · rw [if_pos hinit, if_pos hinit]
  · rw [if_neg hinit, if_neg hinit]
    dsimp only
    split
    · rfl
    · rfl

theorem updStats_push (w : List ℚ) (st : Stats) (v : ℚ)
    (h1 : st.sum = w.sum)
    (h2 : st.sumSq = (w.map (fun x => x * x)).sum)
    (h3 : st.count = w.length)
    (h4 : w.length ≤ windowSize) :
    (updStats st v (oldOfWindow w)).sum = (pushWindow w v).sum ∧
    (updStats st v (oldOfWindow w)).sumSq = ((pushWindow w v).map (fun x => x * x)).sum ∧
    (updStats st v (oldOfWindow w)).count = (pushWindow w v).length ∧
    (pushWindow w v).length ≤ windowSize := by
  unfold oldOfWindow pushWindow
  split_ifs with hfull
  · cases w with
    | nil => exact absurd hfull (by simp [windowSize])
    | cons a as =>
        simp only [List.head?_cons, updStats, List.tail_cons]
        simp only [List.sum_cons] at h1
        simp only [List.map_cons, List.sum_cons] at h2
        simp only [List.length_cons] at h3 hfull
        refine ⟨?_, ?_, ?_, ?_⟩
        · rw [h1]
          simp [List.sum_append]
        · rw [h2]
          simp [List.map_append, List.sum_append]
        · simp only [List.length_append, List.length_cons, List.length_nil]
          omega
        · simp only [List.length_append, List.length_cons, List.length_nil]
          omega
  · simp only [updStats]
    refine ⟨?_, ?_, ?_, ?_⟩
    · rw [h1]
      simp [List.sum_append]
    · rw [h2]
      simp [List.map_append, List.sum_append]
    · simp only [List.length_append, List.length_cons, List.length_nil]
      omega
    · simp only [List.length_append, List.length_cons, List.length_nil]
      omega

theorem stepState_coherent (s : SDState) (t : STick) (h : coherent s) :
    coherent (stepState s t) := by
  unfold stepState
  by_cases hinit : ¬ s.initialized
  · rw [if_pos hinit]
    simp [coherent, Stats.zero, windowSize]
  · rw [if_neg hinit]
    obtain ⟨p1, p2, p3, p4, v1, v2, v3, v4⟩ := h
    obtain ⟨q1, q2, q3, q4⟩ := updStats_push s.priceWindow s.priceStats t.price p1 p2 p3 p4
    by_cases hv : (0 : ℚ) < ((t.volume - s.lastVolume : ℤ) : ℚ)
    · obtain ⟨r1, r2, r3, r4⟩ :=
        updStats_push s.volumeWindow s.volumeStats ((t.volume - s.lastVolume : ℤ) : ℚ) v1 v2 v3 v4
      simp only [coherent, if_pos hv]
      exact ⟨q1, q2, q3, q4, r1, r2, r3, r4⟩
    · simp only [coherent, if_neg hv]
      exact ⟨q1, q2, q3, q4, v1, v2, v3, v4⟩

theorem sdRun_coherent (P : Params) (ts : List STick) : coherent (sdRun P ts) := by
  have main : ∀ (ts : List STick) (s : SDState), coherent s →
      coherent (ts.foldl (fun s t => (processTick P s t).1) s) := by
    intro ts
    induction ts with
    | nil => intro s h; simpa using h
    | cons t rest ih =>
        intro s h
        simp only [List.foldl_cons]
        refine ih ((processTick P s t).1) ?_
        rw [processTick_fst]
        exact stepState_coherent s t h
  exact main ts SDState.start (by simp [coherent, SDState.start, Stats.zero, windowSize])

theorem sum_sq_dev (l : List ℚ) (m : ℚ) :
    (l.map (fun x => (x - m)^2)).sum =
      (l.map (fun x => x * x)).sum - 2 * m * l.sum + (l.length : ℚ) * m^2 := by
  induction l with
  | nil => simp
  | cons a as ih =>
      simp only [List.map_cons, List.sum_cons, List.length_cons, ih]
      push_cast
      ring

theorem inc_eq_recompute (st : Stats) (w : List ℚ)
    (h1 : st.sum = w.sum) (h2 : st.sumSq = (w.map (fun x => x * x)).sum)
    (h3 : st.count = w.length) :
    incMean st = listMean w ∧ incVar st = listVar w := by
  constructor
  · unfold incMean listMean
    rw [h1, h3]
  · unfold incVar listVar incMean
    rw [h1, h2, h3]
    rcases Nat.eq_zero_or_pos w.length with hz | hpos
    · rw [hz]
      simp
    · have hn : ((w.length : ℚ)) ≠ 0 := Nat.cast_ne_zero.mpr (by omega)
      rw [sum_sq_dev w (listMean w)]
      unfold listMean
      field_simp
      ring

/-- C5: after any tick sequence, the mean and variance the detector derives
from its incrementally maintained running sum and sum-of-squares equal the
mean and variance recomputed in full over the prices currently in the
rolling window, and likewise for the positive-volume-delta series (the
equalities are exact over the rationals, hence within any floating-point
tolerance; the standard deviations, being the square roots of equal
variances, agree as well). -/
theorem incremental_stats_match (P : Params) (ts : List STick)
    (hlen : 10 ≤ (sdRun P ts).priceStats.count) :
    incMean (sdRun P ts).priceStats = listMean (sdRun P ts).priceWindow ∧
    incVar (sdRun P ts).priceStats = listVar (sdRun P ts).priceWindow ∧
    incMean (sdRun P ts).volumeStats = listMean (sdRun P ts).volumeWindow ∧
    incVar (sdRun P ts).volumeStats = listVar (sdRun P ts).volumeWindow := by
  obtain ⟨p1, p2, p3, _, v1, v2, v3, _⟩ := sdRun_coherent P ts
  obtain ⟨m1, m2⟩ := inc_eq_recompute _ _ p1 p2 p3
  obtain ⟨m3, m4⟩ := inc_eq_recompute _ _ v1 v2 v3
  exact ⟨m1, m2, m3, m4⟩

/-- Witness for C5: the 13-tick sequence `exTicks` leaves 12 price samples
in the window. -/
theorem incremental_stats_match_witness :
    10 ≤ (sdRun defaultParams exTicks).priceStats.count ∧
    (incMean (sdRun defaultParams exTicks).priceStats =
        listMean (sdRun defaultParams exTicks).priceWindow ∧
     incVar (sdRun defaultParams exTicks).priceStats =
        listVar (sdRun defaultParams exTicks).priceWindow ∧
     incMean (sdRun defaultParams exTicks).volumeStats =
        listMean (sdRun defaultParams exTicks).volumeWindow ∧
     incVar (sdRun defaultParams exTicks).volumeStats =
        listVar (sdRun defaultParams exTicks).volumeWindow) :=
  ⟨by norm_num [sdRun, exTicks, processTick, pushWindow, oldOfWindow, updStats,
     Stats.zero, SDState.start, defaultParams, windowSize, spikeFires,
     volSurgeFires, momentumFires],
   incremental_stats_match defaultParams exTicks
     (by norm_num [sdRun, exTicks, processTick, pushWindow, oldOfWindow, updStats,
        Stats.zero, SDState.start, defaultParams, windowSize, spikeFires,
        volSurgeFires, momentumFires])⟩

/-- C4 counterexample: the detector itself maintains no cooldown: on the
tick sequence `exTicks` it emits a MOMENTUM signal on two consecutive
ticks one second apart, well inside the 60-second cooldown window, so the
suppression observed at the system level is not performed by the
detector. -/
theorem detector_emits_within_cooldown :
    sdEmissions defaultParams SDState.start exTicks =
      [(12, SigType.momentum), (13, SigType.momentum)] ∧
    (13 : ℚ) - 12 < SvcCool.cooldownSeconds := by
  constructor
  · norm_num [sdEmissions, exTicks, processTick, pushWindow, oldOfWindow,
      updStats, Stats.zero, SDState.start, defaultParams, windowSize, spikeFires,
      volSurgeFires, momentumFires]
  · norm_num [SvcCool.cooldownSeconds]

end Spike

namespace SvcCool

theorem emitFilter_spacing (l : List (ℚ × Spike.SigType))
    (last : Spike.SigType → Option ℚ)
    (hmono : l.Pairwise (fun a b => a.1 ≤ b.1))
    (hlast : ∀ k t0, last k = some t0 → ∀ a ∈ l, t0 ≤ a.1) :
    (emitFilter last l).Pairwise
      (fun a b => a.2 = b.2 → a.1 + cooldownSeconds ≤ b.1) ∧
    (∀ a ∈ emitFilter last l, ∀ k t0, last k = some t0 → a.2 = k →
        t0 + cooldownSeconds ≤ a.1) := by
  induction l generalizing last with
  | nil => simp [emitFilter]
  | cons hd rest ih =>
      obtain ⟨t, k⟩ := hd
      rw [List.pairwise_cons] at hmono
      obtain ⟨hts, hmono2⟩ := hmono
      have hlast2 : ∀ k2 t0, last k2 = some t0 → ∀ a ∈ rest, t0 ≤ a.1 :=
        fun k2 t0 h a ha => hlast k2 t0 h a (List.mem_cons_of_mem _ ha)
      have hupd : ∀ k2 t0, update last k t k2 = some t0 → ∀ a ∈ rest, t0 ≤ a.1 := by
        intro k2 t0 h a ha
        unfold update at h
        by_cases hk : k2 = k
        · rw [if_pos hk] at h
          rw [← Option.some_inj.mp h]
          exact hts a ha
        · rw [if_neg hk] at h
          exact hlast2 k2 t0 h a ha
      cases hl : last k with
      | none =>
          simp only [emitFilter, hl]
          obtain ⟨ihp, ihc⟩ := ih (update last k t) hmono2 hupd
          constructor
          · rw [List.pairwise_cons]
            refine ⟨?_, ihp⟩
            intro b hb hbk
            exact ihc b hb k t (by unfold update; rw [if_pos rfl]) hbk.symm
          · intro a ha k2 t0 hl2 hak
            rcases List.mem_cons.mp ha with rfl | ha2
            · exfalso
              have hk2 : k = k2 := hak
              rw [← hk2, hl] at hl2
              exact Option.noConfusion hl2
            · by_cases hk : k2 = k
              · rw [hk, hl] at hl2
                exact Option.noConfusion hl2
              · exact ihc a ha2 k2 t0 (by unfold update; rw [if_neg hk]; exact hl2) hak
      | some t0 =>
          simp only [emitFilter, hl]
          by_cases hcd : t - t0 < cooldownSeconds
          · rw [if_pos hcd]
            exact ih last hmono2 hlast2
          · rw [if_neg hcd]
            obtain ⟨ihp, ihc⟩ := ih (update last k t) hmono2 hupd
            constructor
            · rw [List.pairwise_cons]
              refine ⟨?_, ihp⟩
              intro b hb hbk
              exact ihc b hb k t (by unfold update; rw [if_pos rfl]) hbk.symm
            · intro a ha k2 t1 hl2 hak
              rcases List.mem_cons.mp ha with rfl | ha2
              · have hk2 : k = k2 := hak
                rw [← hk2, hl] at hl2
                rw [← Option.some_inj.mp hl2]
                have : cooldownSeconds ≤ t - t0 := not_lt.mp hcd
                linarith
              · by_cases hk : k2 = k
                · rw [hk] at hak
                  rw [hk, hl] at hl2
                  have ht1 : t1 = t0 := (Option.some_inj.mp hl2).symm
                  have hbound : t + cooldownSeconds ≤ a.1 :=
                    ihc a ha2 k t (by unfold update; rw [if_pos rfl]) hak
                  have hcd2 : cooldownSeconds ≤ t - t0 := not_lt.mp hcd
                  have hcd0 : (0 : ℚ) ≤ cooldownSeconds := by norm_num [cooldownSeconds]
                  rw [ht1]
                  linarith
                · exact ihc a ha2 k2 t1 (by unfold update; rw [if_neg hk]; exact hl2) hak

end SvcCool

namespace SvcCool

/-- C4 amended: the per-(instrument, signal-type) cooldown is maintained by
`SignalService` (the detector's caller), not by the detector itself (see
the counterexample on the detector); for every candidate signal stream
processed in time order, the service emits no two signals of the same type
within the 60-second cooldown window. -/
theorem service_cooldown_spacing (l : List (ℚ × Spike.SigType))
    (hmono : l.Pairwise (fun a b => a.1 ≤ b.1)) :
    (serviceEmit l).Pairwise
      (fun a b => a.2 = b.2 → a.1 + cooldownSeconds ≤ b.1) :=
  (emitFilter_spacing l (fun _ => none) hmono
    (fun _ _ h => Option.noConfusion h)).1

/-- Witness for C4 amended: momentum candidates at 0s, 30s and 70s; the
30s candidate is suppressed and the emitted signals are 70s apart. -/
theorem service_cooldown_spacing_witness :
    (serviceEmit wCandidates).Pairwise
      (fun a b => a.2 = b.2 → a.1 + cooldownSeconds ≤ b.1) :=
  service_cooldown_spacing wCandidates
    (by norm_num [wCandidates, List.pairwise_cons])

end SvcCool
